import Mathlib

/-!
Verification of the `lpc-cat` SWO trace extractor (src/main.rs).

The embedding models the three algorithmic pieces of the program:

* `check_cmd` / `ohai` — the handshake response validation
  (src/main.rs lines 187-199 and 294-300);
* `poll_decode` / `poll` — classification of a raw poll response into a
  `PollResult` (src/main.rs lines 232-275, `Handle::poll`);
* `recon_step` — one iteration of the stream-reconstruction loop in `main`
  (src/main.rs lines 95-143).

Bytes are modelled as naturals (a real byte is `< 256`); fixed-width
arithmetic is made explicit (`% 65536` for an `as u16` cast, `% 256` for
`u8::wrapping_add`).  A Rust panic (out-of-bounds slice index, failed
`assert!`) is modelled by `Option`: `none` is a panic.  The transport
(USB HID write/read) is out of scope: each function takes the list of
bytes the `read` call returned.
-/

namespace LpcCat

/-- Protocol-level errors of the program, one constructor per distinct
`Err(...)` string in src/main.rs. -/
inductive ProtoErr where
  /-- "unexpected response" (from `check_cmd`). -/
  | unexpectedResponse
  /-- "unexpected ohai response" (from `Handle::ohai`). -/
  | unexpectedOhaiResponse
  /-- "invalid fill levels!" (from `Handle::poll`). -/
  | invalidFillLevels
  /-- "unexpected poll response" (from `Handle::poll`). -/
  | unexpectedPollResponse
  deriving DecidableEq, Repr

/-- One poll outcome, mirroring `enum PollResult` in src/main.rs.  The
epoch travels alongside, as in the `(epoch, PollResult)` pair returned by
`Handle::poll`. -/
inductive PollResult where
  /-- No new traffic in buffer since last poll. -/
  | Empty : PollResult
  /-- New traffic at device offsets `[start, end_)`; `fragment` is the
  slice `response[5 .. 5 + (end_ - start)]`. -/
  | Incremental (start end_ : Nat) (fragment : List Nat) : PollResult
  /-- Full buffer dump: `response[2 .. 1024]`, 1022 bytes. -/
  | Total (packet : List Nat) : PollResult
  deriving DecidableEq, Repr

/-- `check_cmd` from src/main.rs lines 294-300: the response's leading
byte must echo the opcode that was sent. -/
def check_cmd (c expected : Nat) : Except ProtoErr Unit :=
  if c ≠ expected then .error .unexpectedResponse else .ok ()

/-- `Handle::ohai` (src/main.rs lines 187-199), response-validation part.
The function writes `[0x1f, mode]`, reads into a zero-initialised
1024-byte array, then validates `response[0]` via `check_cmd` against
`0x1f` and requires `response[1] == 0x38`.  `resp` is the array after the
read; since it is 1024 bytes and zero-initialised, indexing never panics
and bytes beyond the data read are 0, which `List.getD _ _ 0` mirrors. -/
def ohai (resp : List Nat) : Except ProtoErr Unit :=
  match check_cmd (resp.getD 0 0) 0x1f with
  | .error e => .error e
  | .ok _ =>
    if resp.getD 1 0 ≠ 0x38 then .error .unexpectedOhaiResponse
    else .ok ()

/-- The packed 24-bit fill-level field of an incremental poll response:
`u32::from(response[2]) | u32::from(response[3]) << 8 |
u32::from(response[4]) << 16` (src/main.rs lines 249-251). -/
def packed_levels (resp : List Nat) : Nat :=
  resp.getD 2 0 ||| resp.getD 3 0 <<< 8 ||| resp.getD 4 0 <<< 16

/-- Decode of the `n` bytes a poll read returned (`Handle::poll`,
src/main.rs lines 240-274).  `resp` is `&buffer[..n]`.  `none` models a
panic: reading `response[0]`/`response[1]` with fewer than 2 bytes,
reading `response[2..=4]` with fewer than 5, or slicing
`response[5..5+n]` / `response[2..1024]` past the end.  The `% 65536`
on `start` and `end_` is the `as u16` cast. -/
def poll_decode (resp : List Nat) : Option (Except ProtoErr (Nat × PollResult)) :=
  if resp.length < 2 then none
  else
    let kind := resp.getD 0 0
    let epoch := resp.getD 1 0
    if kind = 0x04 then
      if 5 ≤ resp.length then
        let packed := packed_levels resp
        if packed = 0 then
          some (.ok (epoch, .Empty))
        else
          let start := (packed &&& 0xFFF) % 65536
          let end_ := (packed >>> 12) % 65536
          if end_ < start then
            some (.error .invalidFillLevels)
          else
            let n := end_ - start
            if 5 + n ≤ resp.length then
              some (.ok (epoch, .Incremental start end_ ((resp.drop 5).take n)))
            else
              none
      else
        none
    else if kind = 0x82 then
      if 1024 ≤ resp.length then
        some (.ok (epoch, .Total ((resp.drop 2).take 1022)))
      else
        none
    else
      some (.error .unexpectedPollResponse)

/-- `Handle::poll` (src/main.rs lines 232-275): first
`assert!(buffer.len() >= 1024)` (a failed assert is a panic, `none`),
then write the poll opcode, read `n` bytes and decode them. -/
def poll (scratch_len : Nat) (resp : List Nat) : Option (Except ProtoErr (Nat × PollResult)) :=
  if scratch_len < 1024 then none
  else poll_decode resp

/-- Result of one iteration of the reconstruction loop: the bytes written
to stdout, whether the "lost stream sync" notice was printed to stderr,
and the new watermark `last`. -/
structure StepOut where
  emitted : List Nat
  syncLost : Bool
  last : Option (Nat × Nat)
  deriving DecidableEq, Repr

/-- One iteration of the reconstruction loop in `main`
(src/main.rs lines 95-143), for one `(epoch, result)` pair returned by
`poll`.  `last` is the `Option<(u8, u16)>` watermark.  `none` models the
panic of the slice `packet[usize::from(last_end)..]` when `last_end`
exceeds the packet length.  `epoch.wrapping_add(1)` on a `u8` is
`(epoch + 1) % 256`. -/
def recon_step (last : Option (Nat × Nat)) (epoch : Nat) (r : PollResult) : Option StepOut :=
  match r with
  | .Empty => some ⟨[], false, last⟩
  | .Incremental start end_ fragment =>
    let continuous : Bool :=
      match last with
      | some (last_epoch, last_end) => last_epoch == epoch && last_end == start
      | none => true
    some ⟨fragment, !continuous, some (epoch, end_)⟩
  | .Total packet =>
    match last with
    | some (last_epoch, last_end) =>
      if epoch = last_epoch then
        if last_end ≤ packet.length then
          some ⟨packet.drop last_end, false, some ((epoch + 1) % 256, 0)⟩
        else
          none
      else
        some ⟨[], true, some ((epoch + 1) % 256, 0)⟩
    | none => some ⟨packet, false, some ((epoch + 1) % 256, 0)⟩

/-! ### Helper lemmas -/

/-- Reading any index of a list of bytes (default 0) yields a byte. -/
theorem getD_lt_256 (resp : List Nat) (hb : ∀ b ∈ resp, b < 256) (i : Nat) :
    resp.getD i 0 < 256 := by
  rcases Nat.lt_or_ge i resp.length with h | h
  · rw [List.getD_eq_getElem?_getD, List.getElem?_eq_getElem h]
    exact hb _ (List.getElem_mem h)
  · rw [List.getD_eq_getElem?_getD, List.getElem?_eq_none h]
    decide

/-- Bitwise or with a shifted value is addition when the low part fits. -/
theorem lor_shiftLeft_eq_add (a b k : Nat) (h : a < 2 ^ k) :
    a ||| b <<< k = a + b * 2 ^ k := by
  rw [Nat.shiftLeft_eq, Nat.lor_comm, Nat.mul_comm b (2 ^ k), ← Nat.mul_add_lt_is_or h b]
  ring

/-- The three-byte little-endian packing computed with `|` and `<<` equals
the base-256 value, and is below 2^24, for byte inputs. -/
theorem packed_bytes_eq (b2 b3 b4 : Nat) (h2 : b2 < 256) (h3 : b3 < 256) (h4 : b4 < 256) :
    (b2 ||| b3 <<< 8 ||| b4 <<< 16 = b2 + 256 * b3 + 65536 * b4) ∧
    b2 + 256 * b3 + 65536 * b4 < 16777216 := by
  have p8 : (2 : Nat) ^ 8 = 256 := by norm_num
  have p16 : (2 : Nat) ^ 16 = 65536 := by norm_num
  have e1 : b2 ||| b3 <<< 8 = b2 + b3 * 2 ^ 8 :=
    lor_shiftLeft_eq_add b2 b3 8 (by rw [p8]; omega)
  have e2 : (b2 + b3 * 2 ^ 8) ||| b4 <<< 16 = (b2 + b3 * 2 ^ 8) + b4 * 2 ^ 16 :=
    lor_shiftLeft_eq_add _ b4 16 (by rw [p8, p16]; omega)
  rw [e1, e2, p8, p16]
  omega

/-- For byte lists, `packed_levels` is the little-endian value of response
bytes 2-4. -/
theorem packed_levels_eq_of_bytes (resp : List Nat) (hb : ∀ b ∈ resp, b < 256) :
    packed_levels resp =
      resp.getD 2 0 + 256 * resp.getD 3 0 + 65536 * resp.getD 4 0 :=
  (packed_bytes_eq _ _ _ (getD_lt_256 resp hb 2) (getD_lt_256 resp hb 3)
    (getD_lt_256 resp hb 4)).1

/-- For a 24-bit packed value, the mask `& 0xFFF` is the low 12 bits and
the shift `>> 12` is the next 12 bits (the `as u16` casts are lossless). -/
theorem low12_high12 (P : Nat) (hP : P < 16777216) :
    (P &&& 0xFFF) % 65536 = P % 4096 ∧ (P >>> 12) % 65536 = P / 4096 := by
  have hand : P &&& 0xFFF = P % 4096 := by
    have h := Nat.and_pow_two_sub_one_eq_mod P 12
    norm_num at h
    exact h
  have hshift : P >>> 12 = P / 4096 := by
    rw [Nat.shiftRight_eq_div_pow]
  rw [hand, hshift]
  omega

/-! ### Claims about the Stream Reconstructor -/

/-- C10: For every `Empty` outcome, no bytes are emitted, no sync-loss
signal is raised, and the watermark is left unchanged; the epoch carried
alongside the `Empty` outcome does not appear in the result. -/
theorem recon_step_empty_spec (last : Option (Nat × Nat)) (epoch : Nat) :
    recon_step last epoch .Empty = some ⟨[], false, last⟩ := rfl

/-- C1: An `Incremental{epoch, start, end_, fragment}` outcome always
emits `fragment` in full and sets the watermark to `(epoch, end_)`; the
sync-loss signal is absent exactly when the watermark was `None` (first
data is accepted unconditionally) or was `(epoch, start)` (continuous). -/
theorem recon_step_incremental_spec (last : Option (Nat × Nat)) (epoch start end_ : Nat)
    (fragment : List Nat) :
    ∃ out, recon_step last epoch (.Incremental start end_ fragment) = some out ∧
      out.emitted = fragment ∧ out.last = some (epoch, end_) ∧
      (out.syncLost = false ↔ (last = none ∨ last = some (epoch, start))) := by
  cases last with
  | none => exact ⟨_, rfl, rfl, rfl, by simp⟩
  | some p =>
    obtain ⟨le, lE⟩ := p
    refine ⟨_, rfl, rfl, rfl, ?_⟩
    simp [recon_step]

/-- C2: A `Total{epoch, payload}` outcome at the watermark's own epoch
emits exactly the tail `payload[last_end ..]` (whose length is
`len(payload) - last_end`), raises no sync-loss signal, and sets the
watermark to `(epoch + 1 mod 256, 0)`; `last_end ≤ len(payload)` makes
the claimed slice well-defined (the out-of-range case panics, see C7). -/
theorem recon_step_total_same_epoch_spec (last_epoch last_end epoch : Nat)
    (payload : List Nat) (heq : last_epoch = epoch) (hle : last_end ≤ payload.length) :
    recon_step (some (last_epoch, last_end)) epoch (.Total payload) =
      some ⟨payload.drop last_end, false, some ((epoch + 1) % 256, 0)⟩ ∧
    (payload.drop last_end).length = payload.length - last_end := by
  subst heq
  exact ⟨by simp [recon_step, hle], by simp⟩

/-- Witness for C2: the spec's example, watermark `(0, 600)` and a
1022-byte total payload at epoch 0: exactly the 422 tail bytes come out,
no sync loss, watermark `(1, 0)`. -/
theorem recon_step_total_same_epoch_witness :
    recon_step (some (0, 600)) 0 (.Total (List.replicate 1022 3)) =
      some ⟨List.replicate 422 3, false, some (1, 0)⟩ ∧
    (List.replicate 422 3).length = 422 := by
  have h := recon_step_total_same_epoch_spec 0 600 0 (List.replicate 1022 3) rfl
    (by rw [List.length_replicate]; omega)
  refine ⟨?_, by rw [List.length_replicate]⟩
  rw [h.1, List.drop_replicate]

/-- C3: A `Total{epoch, payload}` outcome at an epoch differing from the
watermark's emits nothing, raises the sync-loss signal, and sets the
watermark to `(epoch + 1 mod 256, 0)`; with no watermark it emits the
whole payload with no sync-loss signal and the same new watermark. -/
theorem recon_step_total_other_spec (last_epoch last_end epoch : Nat) (payload : List Nat) :
    (last_epoch ≠ epoch →
      recon_step (some (last_epoch, last_end)) epoch (.Total payload) =
        some ⟨[], true, some ((epoch + 1) % 256, 0)⟩) ∧
    recon_step none epoch (.Total payload) =
      some ⟨payload, false, some ((epoch + 1) % 256, 0)⟩ := by
  refine ⟨fun hne => ?_, rfl⟩
  simp [recon_step, Ne.symm hne]

/-- Witness for C3: the spec's epoch-skip example, watermark `(0, 600)`
then `Total` at epoch 2 emits nothing with sync loss and watermark
`(3, 0)`; and a first observation `Total` at epoch 7 emits everything. -/
theorem recon_step_total_other_witness :
    recon_step (some (0, 600)) 2 (.Total (List.replicate 1022 3)) =
      some ⟨[], true, some (3, 0)⟩ ∧
    recon_step none 7 (.Total [1, 2, 3]) = some ⟨[1, 2, 3], false, some (8, 0)⟩ :=
  ⟨(recon_step_total_other_spec 0 600 2 (List.replicate 1022 3)).1 (by omega),
   (recon_step_total_other_spec 0 0 7 [1, 2, 3]).2⟩

/-- C5: The watermark epoch written after every `Total` outcome is
`(epoch + 1) % 256`; in particular a `Total` at epoch 255 with matching
watermark yields watermark `(0, 0)`, and a subsequent
`Incremental{epoch=0, start=0}` is judged continuous (no sync loss). -/
theorem recon_step_total_wraparound_spec :
    (∀ last epoch (payload : List Nat) out,
        recon_step last epoch (.Total payload) = some out →
        out.last = some ((epoch + 1) % 256, 0)) ∧
    (∀ last_end (payload : List Nat), last_end ≤ payload.length →
        recon_step (some (255, last_end)) 255 (.Total payload) =
          some ⟨payload.drop last_end, false, some (0, 0)⟩) ∧
    (∀ end_ (fragment : List Nat),
        recon_step (some (0, 0)) 0 (.Incremental 0 end_ fragment) =
          some ⟨fragment, false, some (0, end_)⟩) := by
  refine ⟨?_, ?_, ?_⟩
  · intro last epoch payload out h
    cases last with
    | none =>
      injection h with h
      rw [← h]
    | some p =>
      obtain ⟨le, lE⟩ := p
      by_cases he : epoch = le
      · subst he
        by_cases hl : lE ≤ payload.length
        · simp [recon_step, hl] at h
          rw [← h]
        · simp [recon_step, hl] at h
      · simp [recon_step, he] at h
        rw [← h]
  · intro last_end payload hle
    simp [recon_step, hle]
  · intro end_ fragment
    rfl

/-- Witness for C5: a `Total` at epoch 255 sets watermark `(0, 0)` and
the next `Incremental{epoch=0, start=0}` is continuous. -/
theorem recon_step_total_wraparound_witness :
    recon_step (some (255, 0)) 255 (.Total [5, 6, 7]) =
      some ⟨[5, 6, 7], false, some (0, 0)⟩ ∧
    recon_step (some (0, 0)) 0 (.Incremental 0 3 [8, 8, 8]) =
      some ⟨[8, 8, 8], false, some (0, 3)⟩ ∧
    StepOut.last ⟨[5, 6, 7], false, some (0, 0)⟩ = some ((255 + 1) % 256, 0) := by
  have h2 := recon_step_total_wraparound_spec.2.1 0 [5, 6, 7] (by simp)
  refine ⟨by simpa using h2, recon_step_total_wraparound_spec.2.2 3 [8, 8, 8], ?_⟩
  exact recon_step_total_wraparound_spec.1 (some (255, 0)) 255 [5, 6, 7] _ h2

/-- C7: The same-epoch `Total` merge is well-defined exactly when the
watermark offset does not exceed the payload length; a 12-bit watermark
offset can reach 4095, and any offset above the 1022-byte payload makes
the step panic (`none`) instead of emitting or signalling sync loss. -/
theorem recon_step_total_oob_spec (e last_end : Nat) (payload : List Nat) :
    (recon_step (some (e, last_end)) e (.Total payload) = none ↔
      payload.length < last_end) ∧
    (payload.length = 1022 → 1022 < last_end → last_end ≤ 4095 →
      recon_step (some (e, last_end)) e (.Total payload) = none) := by
  have hiff : recon_step (some (e, last_end)) e (.Total payload) = none ↔
      payload.length < last_end := by
    by_cases hl : last_end ≤ payload.length
    · simp only [recon_step, if_pos rfl, if_pos hl]
      constructor
      · intro h
        exact absurd h (by simp)
      · intro h
        omega
    · simp only [recon_step, if_pos rfl, if_neg hl]
      constructor
      · intro _
        omega
      · intro _
        rfl
  exact ⟨hiff, fun h1 h2 _ => hiff.mpr (by omega)⟩

/-- Witness for C7: watermark offset 4095 (the 12-bit maximum) against a
1022-byte total payload at the same epoch panics. -/
theorem recon_step_total_oob_witness :
    recon_step (some (0, 4095)) 0 (.Total (List.replicate 1022 0)) = none ∧
    (List.replicate 1022 0).length = 1022 :=
  ⟨(recon_step_total_oob_spec 0 4095 (List.replicate 1022 0)).2
      (by rw [List.length_replicate]) (by omega) (by omega),
   by rw [List.length_replicate]⟩

/-! ### Claims about the Poller -/

/-- C4: For a kind-0x04 response of at least 5 bytes, with `P` the 24-bit
field packed from response bytes 2-4 in little-endian order: the outcome
is `Empty` exactly when `P = 0`; otherwise `start` is the low 12 bits
`P % 4096` and `end_` the next 12 bits `P / 4096`, the decode returns the
invalid-fill-levels error exactly when `end_ < start` (independently of
any reconstruction state, which `poll_decode` does not take), and
otherwise yields `Incremental` whose fragment is exactly the
`end_ - start` bytes at response offset 5. -/
theorem poll_decode_incremental_spec (resp : List Nat) (hb : ∀ b ∈ resp, b < 256)
    (hk : resp.getD 0 0 = 0x04) (h5 : 5 ≤ resp.length) :
    ∀ P, P = resp.getD 2 0 + 256 * resp.getD 3 0 + 65536 * resp.getD 4 0 →
      ((poll_decode resp = some (.ok (resp.getD 1 0, .Empty))) ↔ P = 0) ∧
      ((poll_decode resp = some (.error .invalidFillLevels)) ↔
        P ≠ 0 ∧ P / 4096 < P % 4096) ∧
      (P ≠ 0 → P % 4096 ≤ P / 4096 → 5 + (P / 4096 - P % 4096) ≤ resp.length →
        poll_decode resp = some (.ok (resp.getD 1 0,
          .Incremental (P % 4096) (P / 4096)
            ((resp.drop 5).take (P / 4096 - P % 4096)))) ∧
        ((resp.drop 5).take (P / 4096 - P % 4096)).length =
          P / 4096 - P % 4096) := by
  intro P hP
  have hpl : packed_levels resp = P := by
    rw [hP]
    exact packed_levels_eq_of_bytes resp hb
  have hPlt : P < 16777216 := by
    rw [hP]
    exact (packed_bytes_eq _ _ _ (getD_lt_256 resp hb 2) (getD_lt_256 resp hb 3)
      (getD_lt_256 resp hb 4)).2
  obtain ⟨hlow, hhigh⟩ := low12_high12 P hPlt
  have h2 : ¬ resp.length < 2 := by omega
  refine ⟨?_, ?_, ?_⟩
  · by_cases hP0 : P = 0
    · simp only [poll_decode]
      rw [hk]
      simp [h2, h5, hpl, hP0]
    · by_cases hord : P / 4096 < P % 4096
      · simp only [poll_decode]
        rw [hk]
        simp [h2, h5, hpl, hlow, hhigh, hP0, hord]
      · by_cases hlen : 5 + (P / 4096 - P % 4096) ≤ resp.length
        · simp only [poll_decode]
          rw [hk]
          simp [h2, h5, hpl, hlow, hhigh, hP0, hord, hlen]
        · simp only [poll_decode]
          rw [hk]
          simp [h2, h5, hpl, hlow, hhigh, hP0, hord, hlen]
  · by_cases hP0 : P = 0
    · simp only [poll_decode]
      rw [hk]
      simp [h2, h5, hpl, hP0]
    · by_cases hord : P / 4096 < P % 4096
      · simp only [poll_decode]
        rw [hk]
        simp [h2, h5, hpl, hlow, hhigh, hP0, hord]
      · by_cases hlen : 5 + (P / 4096 - P % 4096) ≤ resp.length
        · simp only [poll_decode]
          rw [hk]
          simp [h2, h5, hpl, hlow, hhigh, hP0, hord, hlen]
        · simp only [poll_decode]
          rw [hk]
          simp [h2, h5, hpl, hlow, hhigh, hP0, hord, hlen]
  · intro hP0 hord hlen
    have hord' : ¬ P / 4096 < P % 4096 := Nat.not_lt.mpr hord
    constructor
    · simp only [poll_decode]
      rw [hk]
      simp [h2, h5, hpl, hlow, hhigh, hP0, hord', hlen]
    · rw [List.length_take, List.length_drop]
      omega

/-- Witness for C4: a 7-byte response with packed field `0x02000`
(start 0, end 2) decodes to `Incremental 0 2` with the two payload bytes;
a zero packed field decodes to `Empty`; packed field 7 (start 7, end 0)
is rejected as invalid fill levels. -/
theorem poll_decode_incremental_witness :
    poll_decode [4, 7, 0, 32, 0, 10, 20] =
      some (.ok (7, .Incremental 0 2 [10, 20])) ∧
    poll_decode [4, 9, 0, 0, 0] = some (.ok (9, .Empty)) ∧
    poll_decode [4, 9, 7, 0, 0] = some (.error .invalidFillLevels) := by
  refine ⟨?_, ?_, ?_⟩
  · have h := (poll_decode_incremental_spec [4, 7, 0, 32, 0, 10, 20] (by decide)
      (by decide) (by decide) 8192 (by decide)).2.2 (by decide) (by decide) (by decide)
    exact h.1
  · exact (poll_decode_incremental_spec [4, 9, 0, 0, 0] (by decide)
      (by decide) (by decide) 0 (by decide)).1.mpr rfl
  · exact (poll_decode_incremental_spec [4, 9, 7, 0, 0] (by decide)
      (by decide) (by decide) 7 (by decide)).2.1.mpr (by decide)

/-- C6: Classification of the kind tag in response byte 0: `0x04` only
ever yields an `Empty` or `Incremental` outcome, `0x82` yields a `Total`
outcome whose payload is the response bytes from offset 2 through the
fixed 1024-byte buffer length, and any other tag makes the decode return
the "unexpected poll response" protocol error. -/
theorem poll_decode_kind_spec (resp : List Nat) :
    (∀ e out, poll_decode resp = some (.ok (e, out)) → resp.getD 0 0 = 0x04 →
      out = .Empty ∨ ∃ s e2 f, out = .Incremental s e2 f) ∧
    (resp.getD 0 0 = 0x82 → 1024 ≤ resp.length →
      poll_decode resp = some (.ok (resp.getD 1 0, .Total ((resp.drop 2).take 1022)))) ∧
    (resp.getD 0 0 ≠ 0x04 → resp.getD 0 0 ≠ 0x82 → 2 ≤ resp.length →
      poll_decode resp = some (.error .unexpectedPollResponse)) := by
  refine ⟨?_, ?_, ?_⟩
  · intro e out h hk
    by_cases h2 : resp.length < 2
    · simp [poll_decode, h2] at h
    · by_cases h5 : 5 ≤ resp.length
      · by_cases hP0 : packed_levels resp = 0
        · simp only [poll_decode] at h
          rw [hk] at h
          simp [h2, h5, hP0] at h
          exact Or.inl h.2.symm
        · by_cases hord : (packed_levels resp >>> 12) % 65536 <
              (packed_levels resp &&& 0xFFF) % 65536
          · simp only [poll_decode] at h
            rw [hk] at h
            simp [h2, h5, hP0, hord] at h
          · by_cases hlen : 5 + ((packed_levels resp >>> 12) % 65536 -
                (packed_levels resp &&& 0xFFF) % 65536) ≤ resp.length
            · simp only [poll_decode] at h
              rw [hk] at h
              simp [h2, h5, hP0, hord, hlen] at h
              exact Or.inr ⟨_, _, _, h.2.symm⟩
            · simp only [poll_decode] at h
              rw [hk] at h
              simp [h2, h5, hP0, hord, hlen] at h
      · simp only [poll_decode] at h
        rw [hk] at h
        simp [h2, h5] at h
  · intro hk hlen
    have h2 : ¬ resp.length < 2 := by omega
    simp only [poll_decode]
    rw [hk]
    simp [h2, hlen]
  · intro hk1 hk2 hlen
    have h2 : ¬ resp.length < 2 := by omega
    simp only [poll_decode]
    rw [if_neg h2, if_neg hk1, if_neg hk2]

/-- Witness for C6: a kind-0x04 response classifies as Empty (never
Total), a 1024-byte kind-0x82 response yields its 1022 payload bytes,
and an unknown tag yields the protocol error. -/
theorem poll_decode_kind_witness :
    (PollResult.Empty = PollResult.Empty ∨
      ∃ s e2 f, PollResult.Empty = PollResult.Incremental s e2 f) ∧
    poll_decode (0x82 :: 9 :: List.replicate 1022 5) =
      some (.ok (9, .Total (List.replicate 1022 5))) ∧
    poll_decode [7, 0] = some (.error .unexpectedPollResponse) := by
  refine ⟨(poll_decode_kind_spec [4, 0, 0, 0, 0]).1 0 .Empty rfl rfl, ?_,
    (poll_decode_kind_spec [7, 0]).2.2 (by decide) (by decide) (by decide)⟩
  have h := (poll_decode_kind_spec (0x82 :: 9 :: List.replicate 1022 5)).2.1 rfl
    (by rw [List.length_cons, List.length_cons, List.length_replicate])
  rw [h]
  norm_num

/-- C8: Panic-freedom bounds of `poll`: the scratch-buffer assert demands
1024 bytes; the decode demands at least 2 read bytes in every case, at
least `5 + (end_ - start)` read bytes for a kind-0x04 response, and at
least 1024 read bytes for a kind-0x82 response (`start`/`end_` being the
12-bit halves the code extracts from the packed field). -/
theorem poll_panic_spec (scratch_len : Nat) (resp : List Nat) :
    (scratch_len < 1024 → poll scratch_len resp = none) ∧
    (1024 ≤ scratch_len → poll scratch_len resp = poll_decode resp) ∧
    (resp.length < 2 → poll_decode resp = none) ∧
    (resp.getD 0 0 = 0x82 →
      ((poll_decode resp).isSome = true ↔ 1024 ≤ resp.length)) ∧
    (resp.getD 0 0 = 0x04 →
      ((poll_decode resp).isSome = true ↔
        5 + ((packed_levels resp >>> 12) % 65536 -
          (packed_levels resp &&& 0xFFF) % 65536) ≤ resp.length)) ∧
    (resp.getD 0 0 ≠ 0x04 → resp.getD 0 0 ≠ 0x82 →
      ((poll_decode resp).isSome = true ↔ 2 ≤ resp.length)) := by
  refine ⟨?_, ?_, ?_, ?_, ?_, ?_⟩
  · intro h
    simp [poll, h]
  · intro h
    simp [poll, Nat.not_lt.mpr h]
  · intro h
    simp [poll_decode, h]
  · intro hk
    by_cases h2 : resp.length < 2
    · simp [poll_decode, h2]
      omega
    · by_cases hlen : 1024 ≤ resp.length
      · simp only [poll_decode]
        rw [hk]
        simp [h2, hlen]
      · simp only [poll_decode]
        rw [hk]
        simp [h2, hlen]
  · intro hk
    by_cases h2 : resp.length < 2
    · simp [poll_decode, h2]
      omega
    · by_cases h5 : 5 ≤ resp.length
      · by_cases hP0 : packed_levels resp = 0
        · simp only [poll_decode]
          rw [hk]
          simp [h2, h5, hP0]
        · by_cases hord : (packed_levels resp >>> 12) % 65536 <
              (packed_levels resp &&& 0xFFF) % 65536
          · simp only [poll_decode]
            rw [hk]
            simp [h2, h5, hP0, hord]
            omega
          · by_cases hlen : 5 + ((packed_levels resp >>> 12) % 65536 -
                (packed_levels resp &&& 0xFFF) % 65536) ≤ resp.length
            · simp only [poll_decode]
              rw [hk]
              simp [h2, h5, hP0, hord, hlen]
            · simp only [poll_decode]
              rw [hk]
              simp [h2, h5, hP0, hord, hlen]
      · simp only [poll_decode]
        rw [hk]
        simp [h2, h5]
        omega
  · intro hk1 hk2
    by_cases h2 : resp.length < 2
    · simp [poll_decode, h2]
    · simp only [poll_decode]
      rw [if_neg h2, if_neg hk1, if_neg hk2]
      simp
      omega

/-- Witness for C8: a small scratch buffer trips the assert; with a valid
scratch buffer `poll` is the decode; one-byte reads panic; a short total
response panics while a 7-byte incremental response and any 2-byte
unknown-tag response decode without panic. -/
theorem poll_panic_witness :
    poll 100 [] = none ∧
    poll 1024 [4, 0, 0, 0, 0] = poll_decode [4, 0, 0, 0, 0] ∧
    poll_decode [9] = none ∧
    (poll_decode [0x82, 0]).isSome = false ∧
    (poll_decode [4, 0, 0, 32, 0, 10, 20]).isSome = true ∧
    (poll_decode [9, 9]).isSome = true := by
  refine ⟨(poll_panic_spec 100 []).1 (by omega),
    (poll_panic_spec 1024 [4, 0, 0, 0, 0]).2.1 (by omega),
    (poll_panic_spec 0 [9]).2.2.1 (by decide), ?_, ?_, ?_⟩
  · have h := (poll_panic_spec 0 [0x82, 0]).2.2.2.1 (by decide)
    rw [Bool.eq_false_iff]
    intro hx
    exact absurd (h.mp hx) (by decide)
  · exact ((poll_panic_spec 0 [4, 0, 0, 32, 0, 10, 20]).2.2.2.2.1 (by decide)).mpr
      (by decide)
  · exact ((poll_panic_spec 0 [9, 9]).2.2.2.2.2 (by decide) (by decide)).mpr (by decide)

/-! ### Claim about the handshake -/

/-- C9: `ohai` (the mode announcement) succeeds exactly when the
response's leading byte echoes the sent opcode `0x1F` and its second byte
is the expected tag `0x38`; an opcode-echo mismatch yields the
`check_cmd` error and a tag mismatch the ohai error; on success nothing
but `()` is returned. -/
theorem ohai_spec (resp : List Nat) :
    (ohai resp = .ok () ↔ resp.getD 0 0 = 0x1f ∧ resp.getD 1 0 = 0x38) ∧
    (resp.getD 0 0 ≠ 0x1f → ohai resp = .error .unexpectedResponse) ∧
    (resp.getD 0 0 = 0x1f → resp.getD 1 0 ≠ 0x38 →
      ohai resp = .error .unexpectedOhaiResponse) := by
  by_cases h0 : resp.getD 0 0 = 0x1f
  · have hc : check_cmd (resp.getD 0 0) 0x1f = .ok () := by
      unfold check_cmd
      rw [if_neg (fun hcon => hcon h0)]
    by_cases h1 : resp.getD 1 0 = 0x38
    · have ho : ohai resp = .ok () := by
        unfold ohai
        rw [hc]
        exact if_neg (fun hcon => hcon h1)
      refine ⟨⟨fun _ => ⟨h0, h1⟩, fun _ => ho⟩, ?_, ?_⟩
      · intro hne
        exact absurd h0 hne
      · intro _ hne
        exact absurd h1 hne
    · have ho : ohai resp = .error .unexpectedOhaiResponse := by
        unfold ohai
        rw [hc]
        exact if_pos h1
      refine ⟨⟨fun he => ?_, fun hb => absurd hb.2 h1⟩, ?_, fun _ _ => ho⟩
      · rw [ho] at he
        exact Except.noConfusion he
      · intro hne
        exact absurd h0 hne
  · have hc : check_cmd (resp.getD 0 0) 0x1f = .error .unexpectedResponse := by
      unfold check_cmd
      rw [if_pos h0]
    have ho : ohai resp = .error .unexpectedResponse := by
      unfold ohai
      rw [hc]
    refine ⟨⟨fun he => ?_, fun hb => absurd hb.1 h0⟩, fun _ => ho, fun ha => absurd ha h0⟩
    rw [ho] at he
    exact Except.noConfusion he

/-- Witness for C9: a correct echo succeeds, a bad tag and a bad opcode
echo fail with the respective protocol errors. -/
theorem ohai_witness :
    ohai [0x1f, 0x38] = .ok () ∧
    ohai [0x1f, 0x00] = .error .unexpectedOhaiResponse ∧
    ohai [0x00, 0x38] = .error .unexpectedResponse :=
  ⟨(ohai_spec [0x1f, 0x38]).1.mpr (by decide),
   (ohai_spec [0x1f, 0x00]).2.2 (by decide) (by decide),
   (ohai_spec [0x00, 0x38]).2.1 (by decide)⟩

end LpcCat
